import Mathlib

/-!
# DynamicForm: section validation, change events and section navigation

A shallow embedding of `src/components/DynamicForm.jsx`: the three pieces of
component state (`formData`, `errors`, `currentSection`), the event handlers
`handleChange`, `validateSection`, `handleNext`, `handlePrev`, `handleSubmit`,
the checkbox `onChange` callback, the loading effect `fetchForm` and the render
path, followed by the properties proved about them.

Conventions of the embedding.

* A JavaScript object used as a map (`formData`, `errors`, `sectionErrors`) is a
  function from keys to `Option`, the table of its own properties; `none` is a
  key the object does not own and the object spread `{ ...prev, [k]: v }` is
  `setKey`.  For a key that is not the name of a property of `Object.prototype`
  (`objectPrototypeKeys`) reading an absent key gives `undefined`; statements
  about arbitrary field identifiers say so where a read of an absent key
  matters.
* A numeric bound of the schema is a `SafeInt`, an integer that a JavaScript
  number holds exactly and prints in plain decimal.
* A JavaScript string is a Lean `String`; `.length` counts UTF-16 code units
  (`jsLength`).
* A handler that would throw a `TypeError` returns `none`.
-/

namespace DynamicForm

/-! ## Values and truthiness -/

/-- The values the handlers store in `formData`: a string (text, email, tel,
textarea, date, dropdown, radio) or an array of strings (checkbox). -/
inductive Value where
  | str (s : String)
  | arr (xs : List String)
  deriving DecidableEq, Repr

/-- Result of reading `formData[k]`: `none` is `undefined`. -/
abbrev AnswerStore := String → Option Value

/-- Result of reading `errors[k]`: `none` is `undefined`. -/
abbrev ErrorMap := String → Option String

/-- Object spread with one computed key: `{ ...obj, [k]: v }`. -/
def setKey {α : Type} (obj : String → Option α) (k : String) (v : α) : String → Option α :=
  fun j => if j = k then some v else obj j

/-- The empty object literal: an object without own properties. -/
def emptyObj {α : Type} : String → Option α := fun _ => none

/-- The property names every object literal inherits from `Object.prototype`.
A read `obj[k]` of a key the object does not own is `undefined` exactly for
the keys outside this list. -/
def objectPrototypeKeys : List String :=
  ["constructor", "hasOwnProperty", "isPrototypeOf", "propertyIsEnumerable",
   "toLocaleString", "toString", "valueOf", "__proto__", "__defineGetter__",
   "__defineSetter__", "__lookupGetter__", "__lookupSetter__"]

/-- An integer of magnitude at most `2^53 - 1`: a JavaScript number holds it
exactly and a template literal prints it in plain decimal. -/
structure SafeInt where
  val : Int
  safe : val.natAbs ≤ 9007199254740991
  deriving DecidableEq, Repr

/-- The safe integer `0`. -/
def SafeInt.zero : SafeInt := { val := 0, safe := by decide }

/-- JavaScript truthiness of `formData[k]`: `undefined` and `""` are falsy, every
array (the empty one included) and every non-empty string is truthy. -/
def truthy : Option Value → Bool
  | none => false
  | some (Value.str s) => s != ""
  | some (Value.arr _) => true

/-- Number of UTF-16 code units of one character. -/
def utf16Units (c : Char) : Nat := if c.val.toNat < 65536 then 1 else 2

/-- The `.length` of a JavaScript string. -/
def jsLength (s : String) : Nat := (s.toList.map utf16Units).sum

/-- The `.length` property of a truthy stored value. -/
def valueLength : Value → Nat
  | Value.str s => jsLength s
  | Value.arr xs => xs.length

/-- String coercion of a value, as `RegExp.prototype.test` applies it to its
argument: a string is itself, an array is its elements joined by commas. -/
def valueToString : Value → String
  | Value.str s => s
  | Value.arr xs => String.intercalate "," xs

/-! ## The regular expression `/\S+@\S+\.\S+/` -/

/-- White space as matched by `\s` in an ECMAScript regular expression. -/
def isJsWhiteSpace (c : Char) : Bool :=
  let n := c.val.toNat
  n == 9 || n == 10 || n == 11 || n == 12 || n == 13 || n == 32 || n == 160 ||
  n == 5760 || (8192 ≤ n && n ≤ 8202) || n == 8232 || n == 8233 || n == 8239 ||
  n == 8287 || n == 12288 || n == 65279

/-- One-character atoms of the pattern: `\S` or a literal character. -/
inductive Atom where
  | nonSpace
  | lit (c : Char)
  deriving DecidableEq, Repr

/-- Whether an atom accepts a character. -/
def Atom.accepts : Atom → Char → Bool
  | Atom.nonSpace, c => !isJsWhiteSpace c
  | Atom.lit d, c => c == d

/-- A pattern term: an atom, or an atom under the greedy quantifier `+`. -/
inductive Term where
  | one (a : Atom)
  | plus (a : Atom)
  deriving DecidableEq, Repr

/-- Backtracking matcher: does some prefix of the input match the sequence of
terms?  A `+` term first tries to take more characters, then to stop. -/
def matchHere : List Term → List Char → Bool
  | [], _ => true
  | _ :: _, [] => false
  | Term.one a :: rest, c :: cs => a.accepts c && matchHere rest cs
  | Term.plus a :: rest, c :: cs =>
      a.accepts c && (matchHere (Term.plus a :: rest) cs || matchHere rest cs)

/-- Unanchored search, `RegExp.prototype.test`: try every start position from
left to right. -/
def regexTest (p : List Term) : List Char → Bool
  | [] => matchHere p []
  | c :: cs => matchHere p (c :: cs) || regexTest p cs

/-- The pattern `\S+@\S+\.\S+`. -/
def emailPattern : List Term :=
  [Term.plus Atom.nonSpace, Term.one (Atom.lit '@'), Term.plus Atom.nonSpace,
   Term.one (Atom.lit '.'), Term.plus Atom.nonSpace]

/-- The test `/\S+@\S+\.\S+/.test(value)` of line 91. -/
def emailTest (v : Value) : Bool := regexTest emailPattern (valueToString v).toList

/-! ## Schema and component state -/

/-- A field definition, with the properties the handlers read. -/
structure FieldDef where
  fieldId : String
  type : String
  required : Bool
  minLength : Option SafeInt
  maxLength : Option SafeInt
  deriving DecidableEq, Repr

/-- A section of the form. -/
structure Section where
  fields : List FieldDef
  deriving DecidableEq, Repr

/-- The fetched form structure (`formStructure`). -/
structure FormStructure where
  sections : List Section
  deriving DecidableEq, Repr

/-- The component state: `formData`, `errors`, `currentSection`. -/
structure State where
  formData : AnswerStore
  errors : ErrorMap
  currentSection : Int

/-- Initial state of the `useState` hooks. -/
def initialState : State :=
  { formData := emptyObj, errors := emptyObj, currentSection := 0 }

/-- Array indexing `sections[i]`: `undefined` outside `0 .. length - 1`. -/
def sectionAt (fs : FormStructure) (i : Int) : Option Section :=
  if 0 ≤ i then fs.sections[i.toNat]? else none

/-! ## Validation -/

/-- Text of the required-field error. -/
def msgRequired : String := "This field is required"

/-- Text of the minimum-length error. -/
def msgMin (n : SafeInt) : String := "Minimum length is " ++ toString n.val

/-- Text of the maximum-length error. -/
def msgMax (n : SafeInt) : String := "Maximum length is " ++ toString n.val

/-- Text of the email-format error. -/
def msgEmail : String := "Invalid email format"

/-- Condition of line 81: `field.minLength && value.length < field.minLength`;
an absent bound and the bound `0` are falsy. -/
def minFails (field : FieldDef) (v : Value) : Bool :=
  match field.minLength with
  | none => false
  | some n => n.val != 0 && decide ((valueLength v : Int) < n.val)

/-- Condition of line 86: `field.maxLength && value.length > field.maxLength`. -/
def maxFails (field : FieldDef) (v : Value) : Bool :=
  match field.maxLength with
  | none => false
  | some n => n.val != 0 && decide ((valueLength v : Int) > n.val)

/-- Condition of line 91: `field.type === "email" && !regex.test(value)`. -/
def emailFails (field : FieldDef) (v : Value) : Bool :=
  field.type == "email" && !emailTest v

/-- Body of the `forEach` callback of `validateSection` (lines 72-96) for one
field, acting on the pair `(sectionErrors, isValid)`.  The four checks are
consecutive `if` statements: each failing one assigns the field's key. -/
def validateField (formData : AnswerStore) (acc : ErrorMap × Bool) (field : FieldDef) :
    ErrorMap × Bool :=
  let value := formData field.fieldId
  let acc1 : ErrorMap × Bool :=
    if field.required && !truthy value then (setKey acc.1 field.fieldId msgRequired, false)
    else acc
  match value with
  | none => acc1
  | some v =>
    if truthy (some v) then
      let acc2 : ErrorMap × Bool :=
        if minFails field v then
          (setKey acc1.1 field.fieldId (msgMin (field.minLength.getD SafeInt.zero)), false)
        else acc1
      let acc3 : ErrorMap × Bool :=
        if maxFails field v then
          (setKey acc2.1 field.fieldId (msgMax (field.maxLength.getD SafeInt.zero)), false)
        else acc2
      if emailFails field v then (setKey acc3.1 field.fieldId msgEmail, false) else acc3
    else acc1

/-- The function `validateSection` (lines 68-100): the pair of the object passed
to `setErrors` and the returned `isValid`. -/
def validateSection (sec : Section) (formData : AnswerStore) : ErrorMap × Bool :=
  sec.fields.foldl (validateField formData) (emptyObj, true)

/-! ## Event handlers -/

/-- The handler `handleChange` (lines 56-66). -/
def handleChange (fieldId : String) (value : Value) (st : State) : State :=
  { st with
    formData := setKey st.formData fieldId value
    errors := setKey st.errors fieldId "" }

/-- The handler `handleNext` (lines 102-106); `none` when `sections[currentSection]`
is `undefined`, where reading `.fields` throws. -/
def handleNext (fs : FormStructure) (st : State) : Option State :=
  match sectionAt fs st.currentSection with
  | none => none
  | some sec =>
    let r := validateSection sec st.formData
    some { st with
      errors := r.1
      currentSection := if r.2 then st.currentSection + 1 else st.currentSection }

/-- The handler `handlePrev` (lines 108-110). -/
def handlePrev (st : State) : State :=
  { st with currentSection := st.currentSection - 1 }

/-- The handler `handleSubmit` (lines 112-117); logging the data is not part of
the state.  `none` when `sections[currentSection]` is `undefined`. -/
def handleSubmit (fs : FormStructure) (st : State) : Option State :=
  match sectionAt fs st.currentSection with
  | none => none
  | some sec => some { st with errors := (validateSection sec st.formData).1 }

/-- How the renderer reads an error (`!!errors[field.fieldId]`, lines 179, 273):
an absent key and the empty string both show no error. -/
def shownError (errors : ErrorMap) (fieldId : String) : Option String :=
  match errors fieldId with
  | none => none
  | some m => if m = "" then none else some m

/-! ## Checkbox toggling -/

/-- The expression `formData[field.fieldId] || []` of lines 317-318. -/
def currentValues (formData : AnswerStore) (fieldId : String) : Value :=
  match formData fieldId with
  | none => Value.arr []
  | some v => if truthy (some v) then v else Value.arr []

/-- The expression of lines 319-323 on an array: spread-and-append when the box
becomes checked, `filter` when it becomes unchecked. -/
def toggle (current : List String) (optionValue : String) (checked : Bool) : List String :=
  if checked then current ++ [optionValue] else current.filter (fun v => v != optionValue)

/-- Lines 319-323 on any stored value.  Spreading a string yields its
characters; a string has no `filter`, so unchecking throws. -/
def newValues (current : Value) (optionValue : String) (checked : Bool) : Option (List String) :=
  match current with
  | Value.arr xs => some (toggle xs optionValue checked)
  | Value.str s =>
    if checked then some (s.toList.map (fun c => String.singleton c) ++ [optionValue]) else none

/-- The checkbox `onChange` callback (lines 316-325). -/
def checkboxOnChange (fieldId optionValue : String) (checked : Bool) (st : State) :
    Option State :=
  match newValues (currentValues st.formData fieldId) optionValue checked with
  | none => none
  | some vs => some (handleChange fieldId (Value.arr vs) st)

/-- The `checked` property of the box for an option (lines 312-315):
`formData[field.fieldId]?.includes(option.value) || false`.  On an array
`includes` is membership, on a string it is the substring test. -/
def isChecked (formData : AnswerStore) (fieldId optionValue : String) : Bool :=
  match formData fieldId with
  | none => false
  | some (Value.arr xs) => decide (optionValue ∈ xs)
  | some (Value.str s) => decide (optionValue.toList <:+: s.toList)

/-- Turning an option on through the rendered box.  The box is controlled: its
`checked` property is `isChecked` (lines 312-315) and a change event carries
the negation of the rendered state, so the callback of lines 316-325 runs with
`e.target.checked = true` only on a box rendered unchecked.  On a box rendered
checked there is no such event and the state stays as it is. -/
def toggleOn (fieldId optionValue : String) (st : State) : Option State :=
  if isChecked st.formData fieldId optionValue then some st
  else checkboxOnChange fieldId optionValue true st

/-! ## Navigation -/

/-- One user event in the rendered form.  `Previous` is disabled on section 0,
and the right-hand button is `Submit` on the last section and `Next` on every
other (lines 341-362). -/
inductive Step (fs : FormStructure) : State → State → Prop where
  | change (st : State) (fieldId : String) (value : Value) :
      Step fs st (handleChange fieldId value st)
  | next (st st1 : State) (hguard : st.currentSection ≠ (fs.sections.length : Int) - 1)
      (h : handleNext fs st = some st1) : Step fs st st1
  | prev (st : State) (hguard : st.currentSection ≠ 0) : Step fs st (handlePrev st)
  | submit (st st1 : State) (hguard : st.currentSection = (fs.sections.length : Int) - 1)
      (h : handleSubmit fs st = some st1) : Step fs st st1

/-- States reachable from section 0 with any answers and errors. -/
inductive Reachable (fs : FormStructure) : State → Prop where
  | start (st : State) (h : st.currentSection = 0) : Reachable fs st
  | step (st st1 : State) (hr : Reachable fs st) (hs : Step fs st st1) : Reachable fs st1

/-! ## Reference descriptions used in the statements -/

/-- The message left for one field by the four checks, read off by priority:
an absent or falsy answer can only fail the required check; on a truthy answer
the email check is decisive, then the maximum length, then the minimum length. -/
def lastFailingCheck (field : FieldDef) (value : Option Value) : Option String :=
  match value with
  | none => if field.required then some msgRequired else none
  | some v =>
    if truthy (some v) then
      if emailFails field v then some msgEmail
      else if maxFails field v then some (msgMax (field.maxLength.getD SafeInt.zero))
      else if minFails field v then some (msgMin (field.minLength.getD SafeInt.zero))
      else none
    else if field.required then some msgRequired else none

/-- Declarative meaning of a term sequence: the strings it matches exactly. -/
def Matches : List Term → List Char → Prop
  | [], m => m = []
  | Term.one a :: rest, m => ∃ c m1, m = c :: m1 ∧ a.accepts c = true ∧ Matches rest m1
  | Term.plus a :: rest, m =>
      ∃ run m1, run ≠ [] ∧ (∀ x ∈ run, a.accepts x = true) ∧ m = run ++ m1 ∧ Matches rest m1

/-- Some substring has the shape of `\S+@\S+\.\S+`: a non-empty run of
non-space characters, `@`, a non-empty run of non-space characters, `.`, and a
non-empty run of non-space characters. -/
def HasEmailSubstring (cs : List Char) : Prop :=
  ∃ pre a b c post, cs = pre ++ (a ++ ('@' :: (b ++ ('.' :: c)))) ++ post ∧
    a ≠ [] ∧ b ≠ [] ∧ c ≠ [] ∧
    (∀ x ∈ a, isJsWhiteSpace x = false) ∧ (∀ x ∈ b, isJsWhiteSpace x = false) ∧
    (∀ x ∈ c, isJsWhiteSpace x = false)

/-! ## Loading and rendering -/

/-- The value of `response.data.form` as fetched: an object whose `sections`
property may be missing (`none`).  Nothing in the component checks it. -/
structure RawForm where
  sections : Option (List Section)
  deriving DecidableEq, Repr

/-- Outcome of the request in `fetchForm`: it resolves with `response.data.form`
(`none` when that property is `null` or `undefined`), or the `try` block
throws. -/
inductive FetchResult where
  | ok (form : Option RawForm)
  | failed
  deriving DecidableEq, Repr

/-- The loading part of the component state: `formStructure`, `loading`,
`error`. -/
structure LoadState where
  formStructure : Option RawForm
  loading : Bool
  error : String
  deriving DecidableEq, Repr

/-- Initial values of the loading state (lines 27, 30, 31). -/
def initialLoadState : LoadState :=
  { formStructure := none, loading := true, error := "" }

/-- The effect `fetchForm` (lines 34-51).  `rollNumber` is the result of
`localStorage.getItem`; when it is `null` or empty the effect only navigates
away and sets no state. -/
def fetchForm (rollNumber : Option String) (res : FetchResult) (ls : LoadState) : LoadState :=
  match rollNumber with
  | none => ls
  | some r =>
    if r = "" then ls
    else
      match res with
      | FetchResult.ok form => { ls with formStructure := form, loading := false }
      | FetchResult.failed =>
        { ls with error := "Failed to fetch form structure", loading := false }

/-- What the component returns: the spinner, the error alert, `null`, or the form
page showing "Section `sectionNumber` of `sectionCount`" and the fields of the
current section. -/
inductive View where
  | spinner
  | alert (message : String)
  | nothing
  | form (sectionNumber : Int) (sectionCount : Nat) (fields : List FieldDef)
  deriving DecidableEq, Repr

/-- The render path of lines 119-169; `none` when the body throws, that is when
`formStructure.sections` or `formStructure.sections[currentSection]` is
`undefined`. -/
def render (ls : LoadState) (currentSection : Int) : Option View :=
  if ls.loading then some View.spinner
  else if ls.error ≠ "" then some (View.alert ls.error)
  else
    match ls.formStructure with
    | none => some View.nothing
    | some raw =>
      match raw.sections with
      | none => none
      | some secs =>
        match sectionAt { sections := secs } currentSection with
        | none => none
        | some sec => some (View.form (currentSection + 1) secs.length sec.fields)

/-- The handler `handleNext` with the fetched structure as `formStructure`;
`none` when reading `formStructure.sections[currentSection]` throws. -/
def handleNextLoaded (ls : LoadState) (st : State) : Option State :=
  match ls.formStructure with
  | none => none
  | some raw =>
    match raw.sections with
    | none => none
    | some secs => handleNext { sections := secs } st

/-! ## Example data -/


/-- A required email field without length bounds. -/
def emailField : FieldDef :=
  { fieldId := "email", type := "email", required := true, minLength := none, maxLength := none }

/-- An optional email field with `minLength: 5`. -/
def emailMin5 : FieldDef :=
  { fieldId := "email", type := "email", required := false, minLength := some { val := 5, safe := by decide },
    maxLength := none }

/-- A required checkbox field. -/
def hobbiesField : FieldDef :=
  { fieldId := "hobbies", type := "checkbox", required := true, minLength := none,
    maxLength := none }

/-- A form of two sections. -/
def demoForm : FormStructure :=
  { sections := [{ fields := [emailField] }, { fields := [hobbiesField] }] }

/-- An answer store holding one entry. -/
def oneAnswer (k : String) (v : Value) : AnswerStore := setKey emptyObj k v

/-- The initial state after typing a well-formed address into the email field. -/
def answeredState : State := handleChange "email" (Value.str "a@b.com") initialState

/-- The state after `Next` on the first section of `demoForm` from
`answeredState`. -/
def secondSectionState : State :=
  { answeredState with
    errors := (validateSection { fields := [emailField] } answeredState.formData).1
    currentSection := 1 }

/-- The state after `Submit` on the second section of `demoForm` from
`secondSectionState`. -/
def submittedState : State :=
  { secondSectionState with
    errors := (validateSection { fields := [hobbiesField] } secondSectionState.formData).1 }

/-- A fetched structure whose first section has no fields. -/
def emptySectionForm : RawForm :=
  { sections := some [{ fields := [] }, { fields := [emailField] }] }

/-- A fetched structure without the `sections` property. -/
def noSectionsForm : RawForm := { sections := none }

/-! ## Lemmas on validation -/

theorem msgRequired_ne_empty : msgRequired ≠ "" := by decide

theorem msgEmail_ne_empty : msgEmail ≠ "" := by decide

theorem append_ne_empty (a b : String) (h : 0 < a.length) : a ++ b ≠ "" := by
  intro hab
  have hl : (a ++ b).length = 0 := by rw [hab]; rfl
  rw [String.length_append] at hl
  omega

theorem msgMin_ne_empty (n : SafeInt) : msgMin n ≠ "" :=
  append_ne_empty _ _ (by decide)

theorem msgMax_ne_empty (n : SafeInt) : msgMax n ≠ "" :=
  append_ne_empty _ _ (by decide)

theorem lastFailingCheck_ne_empty (field : FieldDef) (value : Option Value) (m : String)
    (h : lastFailingCheck field value = some m) : m ≠ "" := by
  unfold lastFailingCheck at h
  cases value with
  | none =>
    simp only at h
    split_ifs at h
    cases h; exact msgRequired_ne_empty
  | some v =>
    simp only at h
    split_ifs at h
    · cases h; exact msgEmail_ne_empty
    · cases h; exact msgMax_ne_empty _
    · cases h; exact msgMin_ne_empty _
    · cases h; exact msgRequired_ne_empty

/-- The error object after one field: its own key takes the field's message when
it has one, every other key is untouched. -/
theorem validateField_fst (fd : AnswerStore) (acc : ErrorMap × Bool) (field : FieldDef)
    (k : String) :
    (validateField fd acc field).1 k =
      if k = field.fieldId then
        (match lastFailingCheck field (fd field.fieldId) with
          | some m => some m
          | none => acc.1 k)
      else acc.1 k := by
  unfold validateField lastFailingCheck
  cases hv : fd field.fieldId with
  | none =>
    by_cases hk : k = field.fieldId <;> cases hr : field.required <;>
      simp [truthy, setKey, hk, hr]
  | some v =>
    by_cases hk : k = field.fieldId <;> cases hr : field.required <;>
      cases ht : truthy (some v) <;> cases he : emailFails field v <;>
      cases hM : maxFails field v <;> cases hm : minFails field v <;>
      simp [setKey, hk, hr, ht, he, hM, hm]

/-- The validity flag after one field. -/
theorem validateField_snd (fd : AnswerStore) (acc : ErrorMap × Bool) (field : FieldDef) :
    (validateField fd acc field).2 =
      (acc.2 && (lastFailingCheck field (fd field.fieldId)).isNone) := by
  unfold validateField lastFailingCheck
  cases hv : fd field.fieldId with
  | none => cases hr : field.required <;> simp [truthy, hr]
  | some v =>
    cases hr : field.required <;>
      cases ht : truthy (some v) <;> cases he : emailFails field v <;>
      cases hM : maxFails field v <;> cases hm : minFails field v <;>
      simp [hr, ht, he, hM, hm]

/-- The fold over the fields, from any accumulator: the validity flag. -/
theorem foldl_validateField_snd (fd : AnswerStore) (fields : List FieldDef)
    (acc : ErrorMap × Bool) :
    (fields.foldl (validateField fd) acc).2 =
      (acc.2 && fields.all (fun f => (lastFailingCheck f (fd f.fieldId)).isNone)) := by
  induction fields generalizing acc with
  | nil => simp
  | cons f rest ih =>
    simp only [List.foldl_cons, List.all_cons]
    rw [ih, validateField_snd, Bool.and_assoc]

/-- The fold over the fields, from any accumulator: a key is absent at the end
exactly when it was absent at the start and no field with that identifier has
a message. -/
theorem foldl_validateField_none (fd : AnswerStore) (fields : List FieldDef)
    (acc : ErrorMap × Bool) (k : String) :
    (fields.foldl (validateField fd) acc).1 k = none ↔
      acc.1 k = none ∧ ∀ f ∈ fields, f.fieldId = k → lastFailingCheck f (fd f.fieldId) = none := by
  induction fields generalizing acc with
  | nil => simp
  | cons f rest ih =>
    simp only [List.foldl_cons, List.mem_cons, forall_eq_or_imp]
    rw [ih, validateField_fst]
    by_cases hk : k = f.fieldId
    · subst hk
      cases hl : lastFailingCheck f (fd f.fieldId) <;> simp
    · have hk2 : ¬ f.fieldId = k := fun h => hk h.symm
      simp [hk, hk2]

/-- The fold over the fields, from any accumulator: every message present at
the end is non-empty when those present at the start are. -/
theorem foldl_validateField_ne_empty (fd : AnswerStore) (fields : List FieldDef)
    (acc : ErrorMap × Bool) (hacc : ∀ k m, acc.1 k = some m → m ≠ "") :
    ∀ k m, (fields.foldl (validateField fd) acc).1 k = some m → m ≠ "" := by
  induction fields generalizing acc with
  | nil => simpa using hacc
  | cons f rest ih =>
    simp only [List.foldl_cons]
    apply ih
    intro k m hkm
    rw [validateField_fst] at hkm
    split_ifs at hkm with hk
    · cases hl : lastFailingCheck f (fd f.fieldId) with
      | none => rw [hl] at hkm; exact hacc k m hkm
      | some m1 =>
        rw [hl] at hkm
        cases hkm
        exact lastFailingCheck_ne_empty f _ _ hl
    · exact hacc k m hkm

/-- The fold over fields with pairwise distinct identifiers: a key carried by no
field keeps its starting entry. -/
theorem foldl_validateField_other (fd : AnswerStore) (fields : List FieldDef)
    (acc : ErrorMap × Bool) (k : String) (hk : ∀ f ∈ fields, f.fieldId ≠ k) :
    (fields.foldl (validateField fd) acc).1 k = acc.1 k := by
  induction fields generalizing acc with
  | nil => rfl
  | cons f rest ih =>
    simp only [List.foldl_cons]
    rw [ih _ (fun g hg => hk g (List.mem_cons_of_mem _ hg)), validateField_fst]
    have h1 : ¬ k = f.fieldId := fun h => hk f (List.mem_cons_self _ _) h.symm
    simp [h1]

/-- The fold over fields with pairwise distinct identifiers: the entry of a
field of the list is its own message, or the starting entry when it has none. -/
theorem foldl_validateField_mem (fd : AnswerStore) (fields : List FieldDef)
    (acc : ErrorMap × Bool) (hnd : (fields.map (fun f => f.fieldId)).Nodup)
    (field : FieldDef) (hmem : field ∈ fields) :
    (fields.foldl (validateField fd) acc).1 field.fieldId =
      (match lastFailingCheck field (fd field.fieldId) with
        | some m => some m
        | none => acc.1 field.fieldId) := by
  induction fields generalizing acc with
  | nil => cases hmem
  | cons f rest ih =>
    simp only [List.map_cons, List.nodup_cons, List.mem_map, not_exists, not_and] at hnd
    simp only [List.foldl_cons]
    rcases List.mem_cons.mp hmem with heq | hin
    · subst heq
      rw [foldl_validateField_other fd rest _ _ (fun g hg => hnd.1 g hg), validateField_fst]
      simp
    · rw [ih _ hnd.2 hin, validateField_fst]
      have h1 : ¬ field.fieldId = f.fieldId := fun h => hnd.1 field hin h
      simp [h1]

/-- Validity of a section in closed form. -/
theorem validateSection_snd (sec : Section) (fd : AnswerStore) :
    (validateSection sec fd).2 =
      sec.fields.all (fun f => (lastFailingCheck f (fd f.fieldId)).isNone) := by
  unfold validateSection
  rw [foldl_validateField_snd]
  simp

/-- The flag returned by `validateSection` is `true` exactly when the error
object it builds has no key. -/
theorem validateSection_valid_iff (sec : Section) (fd : AnswerStore) :
    (validateSection sec fd).2 = true ↔ ∀ k, (validateSection sec fd).1 k = none := by
  rw [validateSection_snd]
  unfold validateSection
  simp only [List.all_eq_true, Option.isNone_iff_eq_none]
  constructor
  · intro h k
    rw [foldl_validateField_none]
    exact ⟨rfl, fun f hf _ => h f hf⟩
  · intro h f hf
    exact ((foldl_validateField_none fd sec.fields _ f.fieldId).mp (h f.fieldId)).2 f hf rfl

/-- Every message in the error object built by `validateSection` is non-empty. -/
theorem validateSection_ne_empty (sec : Section) (fd : AnswerStore) (k m : String)
    (h : (validateSection sec fd).1 k = some m) : m ≠ "" :=
  foldl_validateField_ne_empty fd sec.fields _ (fun _ _ h0 => by simp [emptyObj] at h0) k m h

/-- In a section with pairwise distinct field identifiers, the entry of each
field is the message of its last failing check. -/
theorem validateSection_mem (sec : Section) (fd : AnswerStore)
    (hnd : (sec.fields.map (fun f => f.fieldId)).Nodup) (field : FieldDef)
    (hmem : field ∈ sec.fields) :
    (validateSection sec fd).1 field.fieldId = lastFailingCheck field (fd field.fieldId) := by
  unfold validateSection
  rw [foldl_validateField_mem fd sec.fields _ hnd field hmem]
  cases lastFailingCheck field (fd field.fieldId) <;> simp [emptyObj]

/-! ## Lemmas on the matcher -/

/-- The matcher succeeds exactly when some prefix of the input is matched by
the term sequence. -/
theorem matchHere_iff (s : List Char) :
    ∀ p : List Term, matchHere p s = true ↔ ∃ m post, s = m ++ post ∧ Matches p m := by
  induction s with
  | nil =>
    intro p
    cases p with
    | nil => simp [matchHere, Matches]
    | cons t rest =>
      cases t with
      | one a =>
        simp only [matchHere, Matches, Bool.false_eq_true, false_iff, not_exists, not_and]
        intro m post hs c m1 hm
        subst hm
        simp at hs
      | plus a =>
        simp only [matchHere, Matches, Bool.false_eq_true, false_iff, not_exists, not_and]
        intro m post hs run m1 hne _ hm
        subst hm
        simp at hs
        exact absurd hs.1 hne
  | cons c cs ih =>
    intro p
    cases p with
    | nil => simp [matchHere, Matches]
    | cons t rest =>
      cases t with
      | one a =>
        simp only [matchHere, Bool.and_eq_true, ih rest]
        constructor
        · rintro ⟨hacc, m, post, hcs, hM⟩
          exact ⟨c :: m, post, by simp [hcs], c, m, rfl, hacc, hM⟩
        · rintro ⟨m, post, hs, c1, m1, hm, hacc, hM⟩
          subst hm
          simp only [List.cons_append, List.cons.injEq] at hs
          obtain ⟨hc, hcs⟩ := hs
          subst hc
          exact ⟨hacc, m1, post, hcs, hM⟩
      | plus a =>
        simp only [matchHere, Bool.and_eq_true, Bool.or_eq_true, ih rest,
          ih (Term.plus a :: rest)]
        constructor
        · rintro ⟨hacc, ⟨m, post, hcs, run, m1, hne, hall, hm, hM⟩ | ⟨m, post, hcs, hM⟩⟩
          · refine ⟨c :: m, post, by simp [hcs], c :: run, m1, by simp, ?_, by simp [hm], hM⟩
            intro x hx
            rcases List.mem_cons.mp hx with rfl | hx1
            · exact hacc
            · exact hall x hx1
          · refine ⟨c :: m, post, by simp [hcs], [c], m, by simp, ?_, rfl, hM⟩
            intro x hx
            rcases List.mem_singleton.mp hx with rfl
            exact hacc
        · rintro ⟨m, post, hs, run, m1, hne, hall, hm, hM⟩
          cases run with
          | nil => exact absurd rfl hne
          | cons r run1 =>
            subst hm
            simp only [List.cons_append, List.cons.injEq] at hs
            obtain ⟨hc, hcs⟩ := hs
            subst hc
            refine ⟨hall c (List.mem_cons_self _ _), ?_⟩
            by_cases hr : run1 = []
            · subst hr
              exact Or.inr ⟨m1, post, by simpa using hcs, hM⟩
            · exact Or.inl ⟨run1 ++ m1, post, hcs, run1, m1, hr,
                fun x hx => hall x (List.mem_cons_of_mem _ hx), rfl, hM⟩

/-- The unanchored search succeeds exactly when some substring of the input is
matched by the term sequence. -/
theorem regexTest_iff (p : List Term) (s : List Char) :
    regexTest p s = true ↔ ∃ pre m post, s = pre ++ m ++ post ∧ Matches p m := by
  induction s with
  | nil =>
    simp only [regexTest, matchHere_iff]
    constructor
    · rintro ⟨m, post, hs, hM⟩
      exact ⟨[], m, post, by simpa using hs, hM⟩
    · rintro ⟨pre, m, post, hs, hM⟩
      have h1 : pre = [] ∧ m = [] ∧ post = [] := by simpa [and_assoc] using hs.symm
      exact ⟨m, post, by simp [h1.2.1, h1.2.2], hM⟩
  | cons c cs ih =>
    simp only [regexTest, Bool.or_eq_true, matchHere_iff, ih]
    constructor
    · rintro (⟨m, post, hs, hM⟩ | ⟨pre, m, post, hs, hM⟩)
      · exact ⟨[], m, post, by simpa using hs, hM⟩
      · exact ⟨c :: pre, m, post, by simp [hs], hM⟩
    · rintro ⟨pre, m, post, hs, hM⟩
      cases pre with
      | nil => exact Or.inl ⟨m, post, by simpa using hs, hM⟩
      | cons x pre1 =>
        simp only [List.cons_append, List.cons.injEq] at hs
        exact Or.inr ⟨pre1, m, post, by simpa using hs.2, hM⟩

/-- What the term sequence of the email pattern matches. -/
theorem matches_emailPattern (m : List Char) :
    Matches emailPattern m ↔
      ∃ a b c, m = a ++ ('@' :: (b ++ ('.' :: c))) ∧ a ≠ [] ∧ b ≠ [] ∧ c ≠ [] ∧
        (∀ x ∈ a, isJsWhiteSpace x = false) ∧ (∀ x ∈ b, isJsWhiteSpace x = false) ∧
        (∀ x ∈ c, isJsWhiteSpace x = false) := by
  simp only [emailPattern, Matches, Atom.accepts, Bool.not_eq_true', beq_iff_eq]
  constructor
  · rintro ⟨a, m1, ha, hsa, rfl, c1, m2, rfl, rfl, b, m3, hb, hsb, rfl, c2, m4, rfl, rfl,
      c, m5, hc, hsc, rfl, rfl⟩
    exact ⟨a, b, c, by simp, ha, hb, hc, hsa, hsb, hsc⟩
  · rintro ⟨a, b, c, rfl, ha, hb, hc, hsa, hsb, hsc⟩
    exact ⟨a, _, ha, hsa, rfl, '@', _, rfl, rfl, b, _, hb, hsb, rfl, '.', _, rfl, rfl,
      c, [], hc, hsc, by simp, rfl⟩

/-- The search for the email pattern succeeds exactly on the inputs that have a
substring of the described shape. -/
theorem regexTest_emailPattern_iff (cs : List Char) :
    regexTest emailPattern cs = true ↔ HasEmailSubstring cs := by
  rw [regexTest_iff]
  unfold HasEmailSubstring
  constructor
  · rintro ⟨pre, m, post, hs, hM⟩
    obtain ⟨a, b, c, rfl, h⟩ := (matches_emailPattern m).mp hM
    exact ⟨pre, a, b, c, post, hs, h⟩
  · rintro ⟨pre, a, b, c, post, hs, h⟩
    exact ⟨pre, _, post, hs, (matches_emailPattern _).mpr ⟨a, b, c, rfl, h⟩⟩

/-! ## Lemmas on navigation -/

theorem sectionAt_isSome_iff (fs : FormStructure) (i : Int) :
    (∃ sec, sectionAt fs i = some sec) ↔ 0 ≤ i ∧ i < (fs.sections.length : Int) := by
  unfold sectionAt
  by_cases h0 : 0 ≤ i
  · simp only [h0, if_true, true_and]
    constructor
    · rintro ⟨sec, hsec⟩
      have hlt : i.toNat < fs.sections.length := (List.getElem?_eq_some.mp hsec).1
      omega
    · intro hlt
      have hlt1 : i.toNat < fs.sections.length := by omega
      exact ⟨fs.sections[i.toNat], List.getElem?_eq_getElem hlt1⟩
  · simp [h0]

theorem handleNext_index (fs : FormStructure) (st st1 : State)
    (h : handleNext fs st = some st1) :
    (0 ≤ st.currentSection ∧ st.currentSection < (fs.sections.length : Int)) ∧
      (st1.currentSection = st.currentSection ∨ st1.currentSection = st.currentSection + 1) := by
  unfold handleNext at h
  cases hsec : sectionAt fs st.currentSection with
  | none => simp [hsec] at h
  | some sec =>
    refine ⟨(sectionAt_isSome_iff fs _).mp ⟨sec, hsec⟩, ?_⟩
    simp only [hsec, Option.some.injEq] at h
    subst h
    by_cases hv : (validateSection sec st.formData).2 = true
    · right; simp [hv]
    · left; simp [hv]

theorem handleSubmit_index (fs : FormStructure) (st st1 : State)
    (h : handleSubmit fs st = some st1) : st1.currentSection = st.currentSection := by
  unfold handleSubmit at h
  cases hsec : sectionAt fs st.currentSection with
  | none => simp [hsec] at h
  | some sec =>
    simp only [hsec, Option.some.injEq] at h
    subst h
    rfl

theorem reachable_in_bounds (fs : FormStructure) (hN : 1 ≤ fs.sections.length) (st : State)
    (hr : Reachable fs st) :
    0 ≤ st.currentSection ∧ st.currentSection < (fs.sections.length : Int) := by
  induction hr with
  | start st h => rw [h]; omega
  | step st st1 _ hs ih =>
    cases hs with
    | change fieldId value => exact ih
    | next _ hguard h =>
      have hn := (handleNext_index fs st st1 h).2
      omega
    | prev hguard =>
      show 0 ≤ st.currentSection - 1 ∧ st.currentSection - 1 < (fs.sections.length : Int)
      omega
    | submit _ hguard h =>
      rw [handleSubmit_index fs st st1 h]
      exact ih

/-! ## Required fields -/

/-- Once a key holds the required-field message it keeps it while the answer
under that key is falsy: no other check can assign the key. -/
theorem foldl_validateField_required_stays (fd : AnswerStore) (fields : List FieldDef)
    (acc : ErrorMap × Bool) (k : String) (hk : truthy (fd k) = false)
    (hacc : acc.1 k = some msgRequired) :
    (fields.foldl (validateField fd) acc).1 k = some msgRequired := by
  induction fields generalizing acc with
  | nil => exact hacc
  | cons f rest ih =>
    simp only [List.foldl_cons]
    apply ih
    rw [validateField_fst]
    split_ifs with hkf
    · subst hkf
      unfold lastFailingCheck
      cases hv : fd f.fieldId with
      | none => cases hr : f.required <;> simp [hacc]
      | some v =>
        rw [hv] at hk
        cases hr : f.required <;> simp [hk, hacc]
    · exact hacc

/-- The part of the required check that holds for every section: a required
field whose answer reads as falsy (`undefined` or the empty string) gets the
required-field message, whatever the other fields are. -/
theorem validateSection_required_falsy (sec : Section) (fd : AnswerStore) (field : FieldDef)
    (hmem : field ∈ sec.fields) (hreq : field.required = true)
    (hval : truthy (fd field.fieldId) = false) :
    (validateSection sec fd).1 field.fieldId = some msgRequired := by
  obtain ⟨fields⟩ := sec
  unfold validateSection
  simp only at hmem ⊢
  generalize ((emptyObj, true) : ErrorMap × Bool) = acc
  induction fields generalizing acc with
  | nil => cases hmem
  | cons f rest ih =>
    simp only [List.foldl_cons]
    rcases List.mem_cons.mp hmem with heq | hin
    · subst heq
      apply foldl_validateField_required_stays _ _ _ _ hval
      rw [validateField_fst]
      unfold lastFailingCheck
      cases hv : fd field.fieldId with
      | none => simp [hreq]
      | some v =>
        rw [hv] at hval
        simp [hval, hreq]
    · exact ih hin _

/-- C1: a required checkbox field whose stored answer is the empty sequence
(an option ticked and unticked again) passes `validateSection` with no entry
under its `fieldId`, whereas the same field with no stored answer gets
"This field is required". -/
theorem required_checkbox_empty_sequence_passes :
    (validateSection { fields := [hobbiesField] }
        (oneAnswer "hobbies" (Value.arr []))).1 "hobbies" = none ∧
      (validateSection { fields := [hobbiesField] }
        (oneAnswer "hobbies" (Value.arr []))).2 = true ∧
      (validateSection { fields := [hobbiesField] } emptyObj).1 "hobbies" =
        some "This field is required" := by
  decide

/-! ## Next -/

/-- C2: on a section that is not the last, `handleNext` returns a state whose
error object is the one built by `validateSection`; when the section is valid
the index becomes `i + 1`, and when it is invalid the index stays `i` and the
error object holds at least one non-empty message. -/
theorem handleNext_advances_iff_valid (fs : FormStructure) (st : State)
    (h0 : 0 ≤ st.currentSection)
    (hlast : st.currentSection + 1 < (fs.sections.length : Int)) :
    ∃ sec st1, sectionAt fs st.currentSection = some sec ∧ handleNext fs st = some st1 ∧
      st1.formData = st.formData ∧ st1.errors = (validateSection sec st.formData).1 ∧
      ((validateSection sec st.formData).2 = true →
        st1.currentSection = st.currentSection + 1) ∧
      ((validateSection sec st.formData).2 = false →
        st1.currentSection = st.currentSection ∧ ∃ k m, st1.errors k = some m ∧ m ≠ "") := by
  obtain ⟨sec, hsec⟩ := (sectionAt_isSome_iff fs st.currentSection).mpr ⟨h0, by omega⟩
  refine ⟨sec, { st with
      errors := (validateSection sec st.formData).1
      currentSection :=
        if (validateSection sec st.formData).2 then st.currentSection + 1
        else st.currentSection }, hsec, by simp [handleNext, hsec], rfl, rfl, ?_, ?_⟩
  · intro hv
    simp [hv]
  · intro hv
    refine ⟨by simp [hv], ?_⟩
    have hne : ¬ ∀ k, (validateSection sec st.formData).1 k = none := by
      rw [← validateSection_valid_iff, hv]
      simp
    obtain ⟨k, hk⟩ := not_forall.mp hne
    obtain ⟨m, hm⟩ := Option.ne_none_iff_exists'.mp hk
    exact ⟨k, m, hm, validateSection_ne_empty sec st.formData k m hm⟩

/-- Instance of C2 on the first of two sections with no answers yet: the
required email field is missing, so the index stays at 0. -/
theorem handleNext_advances_iff_valid_witness :
    (0 : Int) ≤ initialState.currentSection ∧
      initialState.currentSection + 1 < (demoForm.sections.length : Int) ∧
      ∃ st1, handleNext demoForm initialState = some st1 ∧ st1.currentSection = 0 ∧
        ∃ k m, st1.errors k = some m ∧ m ≠ "" := by
  refine ⟨by decide, by decide, ?_⟩
  obtain ⟨sec, st1, hsec, hnext, _, _, _, hinv⟩ :=
    handleNext_advances_iff_valid demoForm initialState (by decide) (by decide)
  have hs : sec = { fields := [emailField] } := by
    have h1 : sectionAt demoForm initialState.currentSection =
        some { fields := [emailField] } := by decide
    rw [h1] at hsec
    exact (Option.some.inj hsec).symm
  subst hs
  have hv : (validateSection { fields := [emailField] } initialState.formData).2 = false := by
    decide
  exact ⟨st1, hnext, (hinv hv).1, (hinv hv).2⟩

/-! ## One message per field -/

/-- C3 fails as stated: for an email field with `minLength: 5` and the answer
"abc", both the minimum-length check and the email check fail, and the stored
message is "Invalid email format", not "Minimum length is 5". -/
theorem email_overrides_minLength :
    minFails emailMin5 (Value.str "abc") = true ∧
      emailFails emailMin5 (Value.str "abc") = true ∧
      (validateSection { fields := [emailMin5] } (oneAnswer "email" (Value.str "abc"))).1
        "email" = some "Invalid email format" ∧
      (validateSection { fields := [emailMin5] } (oneAnswer "email" (Value.str "abc"))).1
        "email" ≠ some "Minimum length is 5" := by
  decide

/-- C3 amended: in a section whose field identifiers are pairwise distinct and
are not names inherited from `Object.prototype` (so that an answer the store
does not own reads as `undefined`), with length bounds that are safe integers,
each field keeps one message, that of the last failing check in source order.
On a falsy answer only the required check can fail.  On a truthy answer a
failing email check decides; otherwise a failing maximum-length check;
otherwise a failing minimum-length check; otherwise the field has no entry. -/
theorem validateSection_keeps_last_failing_check (sec : Section) (fd : AnswerStore)
    (hnd : (sec.fields.map (fun f => f.fieldId)).Nodup)
    (_hkeys : ∀ f ∈ sec.fields, f.fieldId ∉ objectPrototypeKeys) (field : FieldDef)
    (hmem : field ∈ sec.fields) :
    (truthy (fd field.fieldId) = false →
      (validateSection sec fd).1 field.fieldId =
        if field.required then some "This field is required" else none) ∧
    (∀ v, fd field.fieldId = some v → truthy (some v) = true →
      (emailFails field v = true →
        (validateSection sec fd).1 field.fieldId = some "Invalid email format") ∧
      (emailFails field v = false → maxFails field v = true →
        ∃ n, field.maxLength = some n ∧
          (validateSection sec fd).1 field.fieldId =
            some ("Maximum length is " ++ toString n.val)) ∧
      (emailFails field v = false → maxFails field v = false → minFails field v = true →
        ∃ n, field.minLength = some n ∧
          (validateSection sec fd).1 field.fieldId =
            some ("Minimum length is " ++ toString n.val)) ∧
      (emailFails field v = false → maxFails field v = false → minFails field v = false →
        (validateSection sec fd).1 field.fieldId = none)) := by
  rw [validateSection_mem sec fd hnd field hmem]
  unfold lastFailingCheck
  constructor
  · intro hf
    cases hv : fd field.fieldId with
    | none => rfl
    | some v =>
      rw [hv] at hf
      simp [hf, msgRequired]
  · intro v hv ht
    rw [hv]
    simp only [ht, if_true]
    refine ⟨?_, ?_, ?_, ?_⟩
    · intro he
      simp [he, msgEmail]
    · intro he hM
      have hM1 := hM
      unfold maxFails at hM1
      cases hn : field.maxLength with
      | none => simp [hn] at hM1
      | some n => exact ⟨n, rfl, by simp [he, hM, msgMax]⟩
    · intro he hM hm
      have hm1 := hm
      unfold minFails at hm1
      cases hn : field.minLength with
      | none => simp [hn] at hm1
      | some n => exact ⟨n, rfl, by simp [he, hM, hm, msgMin]⟩
    · intro he hM hm
      simp [he, hM, hm]

/-- Instance of the amended C3 on the email field with `minLength: 5` and the
answer "abc". -/
theorem validateSection_keeps_last_failing_check_witness :
    (([emailMin5] : List FieldDef).map (fun f => f.fieldId)).Nodup ∧
      (∀ f ∈ [emailMin5], f.fieldId ∉ objectPrototypeKeys) ∧
      emailMin5 ∈ [emailMin5] ∧
      (validateSection { fields := [emailMin5] } (oneAnswer "email" (Value.str "abc"))).1
        emailMin5.fieldId = some "Invalid email format" :=
  ⟨by decide, by decide, by decide,
    ((validateSection_keeps_last_failing_check { fields := [emailMin5] }
      (oneAnswer "email" (Value.str "abc")) (by decide) (by decide) emailMin5 (by decide)).2
      (Value.str "abc") (by decide) (by decide)).1 (by decide)⟩

/-! ## Validity flag -/

/-- C4: the boolean returned by `validateSection` is `true` exactly when the
error object it builds has no key, equivalently when no field of the section
has an entry. -/
theorem validateSection_flag_iff_no_entry (sec : Section) (fd : AnswerStore) :
    ((validateSection sec fd).2 = true ↔ ∀ k, (validateSection sec fd).1 k = none) ∧
      ((validateSection sec fd).2 = true ↔
        ∀ f ∈ sec.fields, (validateSection sec fd).1 f.fieldId = none) := by
  refine ⟨validateSection_valid_iff sec fd, ?_⟩
  constructor
  · intro hv f _
    exact (validateSection_valid_iff sec fd).mp hv f.fieldId
  · intro h
    rw [validateSection_snd]
    simp only [List.all_eq_true, Option.isNone_iff_eq_none]
    intro f hf
    have hnone := h f hf
    unfold validateSection at hnone
    exact ((foldl_validateField_none fd sec.fields _ f.fieldId).mp hnone).2 f hf rfl

/-! ## Checkbox toggling and change events -/

theorem checkboxOnChange_of_array (fieldId optionValue : String) (checked : Bool) (st : State)
    (s : List String) (h : currentValues st.formData fieldId = Value.arr s) :
    checkboxOnChange fieldId optionValue checked st =
      some (handleChange fieldId (Value.arr (toggle s optionValue checked)) st) := by
  simp [checkboxOnChange, h, newValues]

theorem handleChange_formData_self (fieldId : String) (value : Value) (st : State) :
    (handleChange fieldId value st).formData fieldId = some value := by
  simp [handleChange, setKey]

theorem isChecked_false_not_mem (st : State) (fieldId optionValue : String) (s : List String)
    (h : currentValues st.formData fieldId = Value.arr s)
    (hc : isChecked st.formData fieldId optionValue = false) : optionValue ∉ s := by
  unfold currentValues at h
  unfold isChecked at hc
  cases hv : st.formData fieldId with
  | none =>
    simp only [hv, Value.arr.injEq] at h
    subst h
    simp
  | some v =>
    cases v with
    | str t =>
      rw [hv] at h
      by_cases ht : truthy (some (Value.str t)) = true
      · simp [ht] at h
      · simp only [ht, Bool.false_eq_true, if_false, Value.arr.injEq] at h
        subst h
        simp
    | arr xs =>
      rw [hv] at h
      simp only [truthy, if_true, Value.arr.injEq] at h
      subst h
      simpa [hv] using hc

/-- Called directly with `checked = true`, the callback appends the option value
whatever the stored sequence is: from no answer, once gives `["a"]` and twice
gives `["a", "a"]`. -/
theorem checkboxOnChange_appends_unconditionally :
    (checkboxOnChange "hobbies" "a" true initialState).map (fun st => st.formData "hobbies") =
        some (some (Value.arr ["a"])) ∧
      ((checkboxOnChange "hobbies" "a" true initialState).bind
          (checkboxOnChange "hobbies" "a" true)).map (fun st => st.formData "hobbies") =
        some (some (Value.arr ["a", "a"])) := by
  decide

/-- The callback with `checked = true` on a stored sequence: the option value is
appended, and the box is rendered checked afterwards. -/
theorem checkboxOnChange_checked_appends (st : State) (fieldId optionValue : String)
    (s : List String) (h : currentValues st.formData fieldId = Value.arr s) :
    ∃ st1, checkboxOnChange fieldId optionValue true st = some st1 ∧
      st1 = handleChange fieldId (Value.arr (s ++ [optionValue])) st ∧
      st1.formData fieldId = some (Value.arr (s ++ [optionValue])) ∧
      isChecked st1.formData fieldId optionValue = true := by
  refine ⟨_, checkboxOnChange_of_array fieldId optionValue true st s h, ?_, ?_, ?_⟩
  · simp [toggle]
  · simp [handleChange_formData_self, toggle]
  · simp [isChecked, handleChange_formData_self, toggle]

/-- C5: turning an option on through the rendered box is idempotent.  For a
stored sequence `s` (or no answer yet, `s` empty) and an option value `v`, doing
it twice gives the same state as doing it once; the stored result is `s` when
`v` is already in it and `s` followed by `v` otherwise, so it contains `v`
exactly once whenever `s` had no duplicate of `v`, and it has no duplicate
entries when `s` had none. -/
theorem toggleOn_idempotent (st : State) (fieldId optionValue : String) (s : List String)
    (h : st.formData fieldId = some (Value.arr s) ∨ (st.formData fieldId = none ∧ s = [])) :
    (toggleOn fieldId optionValue st).bind (toggleOn fieldId optionValue) =
        toggleOn fieldId optionValue st ∧
      ∃ st1, toggleOn fieldId optionValue st = some st1 ∧
        st1.formData fieldId =
          some (Value.arr (if optionValue ∈ s then s else s ++ [optionValue])) ∧
        (s.count optionValue ≤ 1 →
          (if optionValue ∈ s then s else s ++ [optionValue]).count optionValue = 1) ∧
        (s.Nodup → (if optionValue ∈ s then s else s ++ [optionValue]).Nodup) := by
  by_cases hm : optionValue ∈ s
  · have hf : st.formData fieldId = some (Value.arr s) := by
      rcases h with h | ⟨_, hs⟩
      · exact h
      · subst hs
        cases hm
    have hc : isChecked st.formData fieldId optionValue = true := by
      simp [isChecked, hf, hm]
    have ht : toggleOn fieldId optionValue st = some st := by
      simp [toggleOn, hc]
    refine ⟨by simp [ht], st, ht, by simp [hm, hf], ?_, by simp [hm]⟩
    intro hle
    have hpos : 0 < s.count optionValue := List.count_pos_iff.mpr hm
    simp only [hm, if_true]
    omega
  · have hcur : currentValues st.formData fieldId = Value.arr s := by
      rcases h with h | ⟨h, hs⟩
      · simp [currentValues, h, truthy]
      · simp [currentValues, h, hs]
    have hc : isChecked st.formData fieldId optionValue = false := by
      rcases h with h | ⟨h, _⟩
      · simp [isChecked, h, hm]
      · simp [isChecked, h]
    obtain ⟨st1, h1, _, h2, h3⟩ :=
      checkboxOnChange_checked_appends st fieldId optionValue s hcur
    have ht : toggleOn fieldId optionValue st = some st1 := by
      simp [toggleOn, hc, h1]
    have ht1 : toggleOn fieldId optionValue st1 = some st1 := by
      simp [toggleOn, h3]
    refine ⟨by simp [ht, ht1], st1, ht, by simp [hm, h2], ?_, ?_⟩
    · intro _
      simp only [hm, if_false]
      rw [List.count_append, List.count_eq_zero_of_not_mem hm]
      simp
    · intro hnd
      simp only [hm, if_false]
      exact List.Nodup.append hnd (List.nodup_singleton _) (by simpa using hm)

/-- Instance of C5: ticking "a" while `["b"]` is stored gives `["b", "a"]`, and
asking again changes nothing. -/
theorem toggleOn_idempotent_witness :
    ((oneAnswer "hobbies" (Value.arr ["b"])) "hobbies" = some (Value.arr ["b"]) ∨
        ((oneAnswer "hobbies" (Value.arr ["b"])) "hobbies" = none ∧ ["b"] = [])) ∧
      (toggleOn "hobbies" "a"
          { initialState with formData := oneAnswer "hobbies" (Value.arr ["b"]) }).bind
          (toggleOn "hobbies" "a") =
        toggleOn "hobbies" "a"
          { initialState with formData := oneAnswer "hobbies" (Value.arr ["b"]) } ∧
      ∃ st1, toggleOn "hobbies" "a"
          { initialState with formData := oneAnswer "hobbies" (Value.arr ["b"]) } = some st1 ∧
        st1.formData "hobbies" = some (Value.arr ["b", "a"]) := by
  have hin : (oneAnswer "hobbies" (Value.arr ["b"])) "hobbies" = some (Value.arr ["b"]) ∨
      ((oneAnswer "hobbies" (Value.arr ["b"])) "hobbies" = none ∧ ["b"] = []) :=
    Or.inl (by decide)
  obtain ⟨hidem, st1, h1, h2, _⟩ := toggleOn_idempotent
    { initialState with formData := oneAnswer "hobbies" (Value.arr ["b"]) }
    "hobbies" "a" ["b"] hin
  exact ⟨hin, hidem, st1, h1, by rw [h2]; decide⟩

/-- C6: `handleChange(f, x)` yields an answer store that maps `f` to `x` and
agrees with the previous one elsewhere, and an error object in which `f` holds
the empty string, which is shown as no error, and every other key is as before;
the section index is untouched and `validateSection` is not involved. -/
theorem handleChange_writes_value_clears_error (st : State) (f : String) (x : Value) :
    (handleChange f x st).formData f = some x ∧
      (∀ g, g ≠ f → (handleChange f x st).formData g = st.formData g) ∧
      (handleChange f x st).errors f = some "" ∧
      shownError (handleChange f x st).errors f = none ∧
      (∀ g, g ≠ f → (handleChange f x st).errors g = st.errors g) ∧
      (∀ g, g ≠ f → shownError (handleChange f x st).errors g = shownError st.errors g) ∧
      (handleChange f x st).currentSection = st.currentSection := by
  refine ⟨by simp [handleChange, setKey], ?_, by simp [handleChange, setKey],
    by simp [handleChange, setKey, shownError], ?_, ?_, rfl⟩
  · intro g hg
    simp [handleChange, setKey, hg]
  · intro g hg
    simp [handleChange, setKey, hg]
  · intro g hg
    simp [handleChange, setKey, shownError, hg]

/-- Instance of C6: editing the email field after the required-field error was
raised for it. -/
theorem handleChange_writes_value_clears_error_witness :
    shownError (setKey emptyObj "email" "This field is required") "email" =
        some "This field is required" ∧
      shownError (handleChange "email" (Value.str "x")
        { initialState with errors := setKey emptyObj "email" "This field is required" }).errors
        "email" = none :=
  ⟨by decide,
    (handleChange_writes_value_clears_error
      { initialState with errors := setKey emptyObj "email" "This field is required" }
      "email" (Value.str "x")).2.2.2.1⟩

/-! ## Email format -/

/-- C7: in a section with pairwise distinct field identifiers, for an email
field whose answer is a non-empty string violating no length bound, the stored
message is "Invalid email format" exactly when no substring of the answer has
the shape non-spaces, `@`, non-spaces, `.`, non-spaces, and otherwise the
field has no entry; "a@b.com" has such a substring and "not-an-email" has
none. -/
theorem email_error_iff_no_match (sec : Section) (fd : AnswerStore)
    (hnd : (sec.fields.map (fun f => f.fieldId)).Nodup) (field : FieldDef)
    (hmem : field ∈ sec.fields) (htype : field.type = "email") (s : String)
    (hval : fd field.fieldId = some (Value.str s)) (hs : s ≠ "")
    (hmin : minFails field (Value.str s) = false)
    (hmax : maxFails field (Value.str s) = false) :
    ((validateSection sec fd).1 field.fieldId = some "Invalid email format" ↔
        ¬ HasEmailSubstring s.toList) ∧
      (HasEmailSubstring s.toList → (validateSection sec fd).1 field.fieldId = none) ∧
      HasEmailSubstring "a@b.com".toList ∧ ¬ HasEmailSubstring "not-an-email".toList := by
  have ht : truthy (some (Value.str s)) = true := by simp [truthy, hs]
  have hentry : (validateSection sec fd).1 field.fieldId =
      if regexTest emailPattern s.toList then none else some "Invalid email format" := by
    rw [validateSection_mem sec fd hnd field hmem, hval]
    unfold lastFailingCheck
    simp only [ht, if_true, hmin, hmax, emailFails, htype, emailTest, valueToString, msgEmail]
    cases regexTest emailPattern s.toList <;> simp
  refine ⟨?_, ?_, ?_, ?_⟩
  · rw [hentry, ← regexTest_emailPattern_iff]
    cases regexTest emailPattern s.toList <;> simp
  · intro hsub
    rw [hentry, (regexTest_emailPattern_iff _).mpr hsub]
    rfl
  · rw [← regexTest_emailPattern_iff]
    decide
  · rw [← regexTest_emailPattern_iff]
    decide

/-- Instance of C7: the email field with the answer "not-an-email". -/
theorem email_error_iff_no_match_witness :
    (([emailField] : List FieldDef).map (fun f => f.fieldId)).Nodup ∧
      emailField ∈ [emailField] ∧ emailField.type = "email" ∧
      oneAnswer "email" (Value.str "not-an-email") emailField.fieldId =
        some (Value.str "not-an-email") ∧
      "not-an-email" ≠ "" ∧
      minFails emailField (Value.str "not-an-email") = false ∧
      maxFails emailField (Value.str "not-an-email") = false ∧
      ((validateSection { fields := [emailField] }
          (oneAnswer "email" (Value.str "not-an-email"))).1 emailField.fieldId =
          some "Invalid email format" ↔ ¬ HasEmailSubstring "not-an-email".toList) :=
  ⟨by decide, by decide, by decide, by decide, by decide, by decide, by decide,
    (email_error_iff_no_match { fields := [emailField] }
      (oneAnswer "email" (Value.str "not-an-email")) (by decide) emailField (by decide)
      (by decide) "not-an-email" (by decide) (by decide) (by decide) (by decide)).1⟩

/-! ## Navigation bounds -/

/-- C8: for a form with at least one section, every state reachable from
section 0 by change events, `Next` off the last section, `Previous` off the
first section and `Submit` on the last section has its index within
`0 .. N - 1`, and `handleSubmit` returns there with the index unchanged. -/
theorem navigation_index_in_bounds (fs : FormStructure) (hN : 1 ≤ fs.sections.length)
    (st : State) (hr : Reachable fs st) :
    0 ≤ st.currentSection ∧ st.currentSection < (fs.sections.length : Int) ∧
      (∃ st1, handleSubmit fs st = some st1 ∧ st1.currentSection = st.currentSection) ∧
      (∀ st1, handleSubmit fs st = some st1 → st1.currentSection = st.currentSection) := by
  have hb := reachable_in_bounds fs hN st hr
  refine ⟨hb.1, hb.2, ?_, fun st1 h => handleSubmit_index fs st st1 h⟩
  obtain ⟨sec, hsec⟩ := (sectionAt_isSome_iff fs st.currentSection).mpr hb
  exact ⟨{ st with errors := (validateSection sec st.formData).1 },
    by simp [handleSubmit, hsec], rfl⟩

/-- Instance of C8 on the two-section form: a run that edits the email field,
goes to the second section with `Next`, presses `Submit` there (blocked, the
required checkbox is unanswered) and goes back with `Previous`.  The index is
within bounds at the end, and at the second section `Submit` leaves it at 1. -/
theorem navigation_index_in_bounds_witness :
    1 ≤ demoForm.sections.length ∧
      Reachable demoForm (handlePrev submittedState) ∧
      submittedState.currentSection = 1 ∧
      ((0 : Int) ≤ (handlePrev submittedState).currentSection ∧
        (handlePrev submittedState).currentSection < (demoForm.sections.length : Int)) ∧
      ∃ st1, handleSubmit demoForm submittedState = some st1 ∧ st1.currentSection = 1 :=
  have h0 : Reachable demoForm answeredState :=
    Reachable.step _ _ (Reachable.start initialState rfl) (Step.change _ _ _)
  have hnext : handleNext demoForm answeredState = some secondSectionState := by
    have hsec : sectionAt demoForm answeredState.currentSection =
        some { fields := [emailField] } := by decide
    have hv : (validateSection { fields := [emailField] } answeredState.formData).2 = true := by
      decide
    simp [handleNext, hsec, hv, secondSectionState]
    rfl
  have h1 : Reachable demoForm secondSectionState :=
    Reachable.step _ _ h0 (Step.next _ _ (by decide) hnext)
  have hsub : handleSubmit demoForm secondSectionState = some submittedState := by
    have hsec : sectionAt demoForm secondSectionState.currentSection =
        some { fields := [hobbiesField] } := by decide
    simp [handleSubmit, hsec, submittedState]
  have h2 : Reachable demoForm submittedState :=
    Reachable.step _ _ h1 (Step.submit _ _ (by decide) hsub)
  have h3 : Reachable demoForm (handlePrev submittedState) :=
    Reachable.step _ _ h2 (Step.prev _ (by decide))
  have hb := navigation_index_in_bounds demoForm (by decide) _ h3
  have hs := navigation_index_in_bounds demoForm (by decide) _ h2
  ⟨by decide, h3, rfl, ⟨hb.1, hb.2.1⟩, hs.2.2.1⟩

/-! ## Toggle-off -/

/-- C9: the toggle-off update stores the sequence filtered by "not equal to the
option value": the value no longer occurs, the result is a subsequence of the
previous sequence (relative order kept) and every other value keeps its number
of occurrences; from no answer, toggling on "a", on "b", then off "a" leaves
`["b"]`. -/
theorem toggle_off_filters (st : State) (fieldId optionValue : String) (s : List String)
    (h : currentValues st.formData fieldId = Value.arr s) :
    (∃ st1, checkboxOnChange fieldId optionValue false st = some st1 ∧
      st1.formData fieldId = some (Value.arr (s.filter (fun v => v != optionValue)))) ∧
      optionValue ∉ s.filter (fun v => v != optionValue) ∧
      (s.filter (fun v => v != optionValue)).Sublist s ∧
      (∀ x, x ≠ optionValue → (s.filter (fun v => v != optionValue)).count x = s.count x) ∧
      (((checkboxOnChange fieldId "a" true initialState).bind
          (checkboxOnChange fieldId "b" true)).bind
          (checkboxOnChange fieldId "a" false)).map (fun st1 => st1.formData fieldId) =
        some (some (Value.arr ["b"])) := by
  refine ⟨⟨_, checkboxOnChange_of_array fieldId optionValue false st s h, ?_⟩, ?_,
    List.filter_sublist s, ?_, ?_⟩
  · simp [handleChange_formData_self, toggle]
  · simp [List.mem_filter]
  · intro x hx
    rw [List.count_filter]
    simpa using hx
  · have h1 : currentValues initialState.formData fieldId = Value.arr [] := rfl
    rw [checkboxOnChange_of_array fieldId "a" true initialState [] h1]
    simp only [Option.some_bind]
    have h2 : currentValues
        (handleChange fieldId (Value.arr (toggle [] "a" true)) initialState).formData fieldId =
        Value.arr ["a"] := by
      simp [currentValues, handleChange_formData_self, truthy, toggle]
    rw [checkboxOnChange_of_array fieldId "b" true _ ["a"] h2]
    simp only [Option.some_bind]
    have h3 : currentValues
        (handleChange fieldId (Value.arr (toggle ["a"] "b" true))
          (handleChange fieldId (Value.arr (toggle [] "a" true)) initialState)).formData
          fieldId = Value.arr ["a", "b"] := by
      simp [currentValues, handleChange_formData_self, truthy, toggle]
    rw [checkboxOnChange_of_array fieldId "a" false _ ["a", "b"] h3]
    simp only [Option.map_some', handleChange_formData_self]
    decide

/-- Instance of C9: unticking "a" when the stored sequence is `["a", "b", "a"]`. -/
theorem toggle_off_filters_witness :
    currentValues (oneAnswer "hobbies" (Value.arr ["a", "b", "a"])) "hobbies" =
        Value.arr ["a", "b", "a"] ∧
      ∃ st1, checkboxOnChange "hobbies" "a" false
          { initialState with formData := oneAnswer "hobbies" (Value.arr ["a", "b", "a"]) } =
          some st1 ∧
        st1.formData "hobbies" = some (Value.arr ["b"]) := by
  refine ⟨by decide, ?_⟩
  obtain ⟨st1, h1, h2⟩ := (toggle_off_filters
    { initialState with formData := oneAnswer "hobbies" (Value.arr ["a", "b", "a"]) }
    "hobbies" "a" ["a", "b", "a"] (by decide)).1
  exact ⟨st1, h1, by rw [h2]; decide⟩

/-! ## Previous -/

/-- C10: from an index `i > 0`, `handlePrev` sets the index to `i - 1`, which
is still non-negative, whatever the answers are, and leaves the answer store
and the error object as they were; `validateSection` is not involved. -/
theorem handlePrev_decrements_only (st : State) (h : 0 < st.currentSection) :
    (handlePrev st).currentSection = st.currentSection - 1 ∧
      0 ≤ (handlePrev st).currentSection ∧
      (handlePrev st).formData = st.formData ∧ (handlePrev st).errors = st.errors := by
  refine ⟨rfl, ?_, rfl, rfl⟩
  show 0 ≤ st.currentSection - 1
  omega

/-- Instance of C10: going back from the second section with an answer that
fails validation and a stale error. -/
theorem handlePrev_decrements_only_witness :
    (0 : Int) < 1 ∧
      (handlePrev { formData := oneAnswer "hobbies" (Value.str ""),
                    errors := setKey emptyObj "hobbies" "This field is required",
                    currentSection := 1 }).currentSection = 0 :=
  ⟨by decide,
    (handlePrev_decrements_only
      { formData := oneAnswer "hobbies" (Value.str ""),
        errors := setKey emptyObj "hobbies" "This field is required",
        currentSection := 1 } (by decide)).1⟩

/-! ## Loading -/

/-- A section without fields is valid and leaves the error object empty. -/
theorem validateSection_no_fields (sec : Section) (fd : AnswerStore) (h : sec.fields = []) :
    (validateSection sec fd).2 = true ∧ ∀ k, (validateSection sec fd).1 k = none := by
  unfold validateSection
  rw [h]
  exact ⟨rfl, fun _ => rfl⟩

/-- C11 fails as stated: a fetched structure whose first section has an empty
`fields` list becomes `formStructure` with no error recorded, is rendered as
"Section 1 of 2" with no fields, validates as valid and lets `Next` advance to
index 1; a fetched structure without `sections` is stored the same way, with
no error recorded, and rendering it throws instead of showing an error. -/
theorem empty_section_accepted_and_validated :
    fetchForm (some "RA1") (FetchResult.ok (some emptySectionForm)) initialLoadState =
        { formStructure := some emptySectionForm, loading := false, error := "" } ∧
      render (fetchForm (some "RA1") (FetchResult.ok (some emptySectionForm)) initialLoadState)
        0 = some (View.form 1 2 []) ∧
      (validateSection { fields := [] } emptyObj).2 = true ∧
      (handleNextLoaded
        (fetchForm (some "RA1") (FetchResult.ok (some emptySectionForm)) initialLoadState)
        initialState).map (fun st => st.currentSection) = some 1 ∧
      fetchForm (some "RA1") (FetchResult.ok (some noSectionsForm)) initialLoadState =
        { formStructure := some noSectionsForm, loading := false, error := "" } ∧
      render (fetchForm (some "RA1") (FetchResult.ok (some noSectionsForm)) initialLoadState)
        0 = none := by
  decide

/-- C11 amended: with a roll number present, a resolved fetch stores whatever
structure it returned as `formStructure` without any check and without touching
`error`, and only a failed fetch is shown as an error.  A stored structure
with `sections` is rendered at every index that has a section, and a section
with an empty `fields` list is shown without fields, validates as valid with an
empty error object, and `Next` advances past it. -/
theorem fetchForm_stores_unchecked (roll : String) (hroll : roll ≠ "") (raw : RawForm)
    (st : State) :
    fetchForm (some roll) (FetchResult.ok (some raw)) initialLoadState =
        { formStructure := some raw, loading := false, error := "" } ∧
      render (fetchForm (some roll) FetchResult.failed initialLoadState) st.currentSection =
        some (View.alert "Failed to fetch form structure") ∧
      (∀ secs sec, raw.sections = some secs →
        sectionAt { sections := secs } st.currentSection = some sec →
        render (fetchForm (some roll) (FetchResult.ok (some raw)) initialLoadState)
            st.currentSection =
          some (View.form (st.currentSection + 1) secs.length sec.fields) ∧
        (sec.fields = [] →
          (validateSection sec st.formData).2 = true ∧
          (∀ k, (validateSection sec st.formData).1 k = none) ∧
          ∃ st1, handleNextLoaded
              (fetchForm (some roll) (FetchResult.ok (some raw)) initialLoadState) st =
              some st1 ∧
            st1.currentSection = st.currentSection + 1)) := by
  have hfetch : fetchForm (some roll) (FetchResult.ok (some raw)) initialLoadState =
      { formStructure := some raw, loading := false, error := "" } := by
    simp [fetchForm, hroll, initialLoadState]
  refine ⟨hfetch, ?_, ?_⟩
  · simp [fetchForm, hroll, initialLoadState, render]
  · intro secs sec hsecs hsec
    rw [hfetch]
    refine ⟨by simp [render, hsecs, hsec], ?_⟩
    intro hempty
    have hv := validateSection_no_fields sec st.formData hempty
    refine ⟨hv.1, hv.2, ?_⟩
    refine ⟨{ st with
      errors := (validateSection sec st.formData).1
      currentSection := st.currentSection + 1 }, ?_, rfl⟩
    simp [handleNextLoaded, hsecs, handleNext, hsec, hv.1]

/-- Instance of the amended C11 on the structure whose first section has no
fields. -/
theorem fetchForm_stores_unchecked_witness :
    "RA1" ≠ "" ∧
      fetchForm (some "RA1") (FetchResult.ok (some emptySectionForm)) initialLoadState =
        { formStructure := some emptySectionForm, loading := false, error := "" } :=
  ⟨by decide, (fetchForm_stores_unchecked "RA1" (by decide) emptySectionForm initialState).1⟩

end DynamicForm
